import Mathlib

/-!
# OpenSchool: verification of the computational core

A shallow embedding, in Lean 4, of the computational core of the OpenSchool
school-management dashboard: the grading engine (weighted averages and
letter-grade banding), the roster resolver, the attendance upsert, the
record-store load path, the CSV codec, and the CSV-to-JSON import CLI.
Each definition mirrors the corresponding JavaScript function; machine
reals are modelled by rationals and JavaScript truthiness is made explicit
where the source relies on it.
-/

namespace OpenSchool

/-! ## Grading engine

From the gradebook module (`renderStudentGrades` in the gradebook component):
for the grades of one student in one class the code folds

    totalWeightedScore += (g.points / g.max_points) * g.weight;
    totalWeight += g.weight;

and renders `totalWeight > 0 ? (totalWeightedScore / totalWeight * 100) : placeholder`.
-/

/-- One grade entry as consumed by the student weighted-average loop:
points scored, maximum points, and the entry weight. -/
structure GradeEntry where
  points : ℚ
  max_points : ℚ
  weight : ℚ
deriving DecidableEq

/-- The fold body of the student weighted-average loop: accumulate
(totalWeightedScore, totalWeight). -/
def sgStep (acc : ℚ × ℚ) (g : GradeEntry) : ℚ × ℚ :=
  (acc.1 + g.points / g.max_points * g.weight, acc.2 + g.weight)

/-- Accumulate (totalWeightedScore, totalWeight) over a class's grade list,
exactly as the rendering loop does. -/
def sgFold (classGrades : List GradeEntry) : ℚ × ℚ :=
  classGrades.foldl sgStep (0, 0)

/-- The weighted percentage of a class's grade list: `some` of the average
when totalWeight is positive, `none` (rendered as a placeholder dash)
otherwise. -/
def weightedPct (classGrades : List GradeEntry) : Option ℚ :=
  let acc := sgFold classGrades
  if 0 < acc.2 then some (acc.1 / acc.2 * 100) else none

/-- `getLetterGrade` from the gradebook component: a top-down chain of
closed-lower-bound threshold tests. -/
def getLetterGrade (pct : ℚ) : String :=
  if pct ≥ 97 then "A+"
  else if pct ≥ 93 then "A"
  else if pct ≥ 90 then "A-"
  else if pct ≥ 87 then "B+"
  else if pct ≥ 83 then "B"
  else if pct ≥ 80 then "B-"
  else if pct ≥ 77 then "C+"
  else if pct ≥ 73 then "C"
  else if pct ≥ 70 then "C-"
  else if pct ≥ 67 then "D+"
  else if pct ≥ 63 then "D"
  else if pct ≥ 60 then "D-"
  else "F"

/-! ## Roster resolution

`getClassStudents` (identical copies in the attendance and gradebook
components): filter enrollments on class and `active` status, collect the
student ids, and keep the users whose id is among them. -/

/-- An enrollment record, with the fields the roster join reads. -/
structure Enrollment where
  id : String
  student_id : String
  class_id : String
  enrolled_at : String
  status : String
deriving DecidableEq

/-- A user record, with the fields the roster join reads. -/
structure User where
  id : String
  username : String
  display_name : String
  role : String
  active : Bool
deriving DecidableEq

/-- `getClassStudents`: the users actively enrolled in the given class. -/
def getClassStudents (classId : String) (enrollments : List Enrollment)
    (users : List User) : List User :=
  let studentIds :=
    (enrollments.filter (fun e => e.class_id == classId && e.status == "active")).map
      (fun e => e.student_id)
  users.filter (fun u => studentIds.contains u.id)

/-! ## Attendance saving

`saveAttendance` in the attendance component: for each student toggle in
the submitted batch, look up the record index for the
(class_id, student_id, date) key with `findIndex`, rebuild the record
(reusing the old id when one exists, a fresh generated id otherwise), and
either overwrite in place or push. -/

/-- An attendance record, with every field `saveAttendance` writes. -/
structure AttRecord where
  id : String
  class_id : String
  student_id : String
  date : String
  status : String
  recorded_by : String
  recorded_at : String
  note : Option String
deriving DecidableEq

/-- The natural-key predicate of the attendance upsert:
same class, same student, same date. -/
def attKey (classId studentId date : String) (a : AttRecord) : Bool :=
  a.class_id == classId && a.student_id == studentId && a.date == date

/-- JavaScript `Array.prototype.findIndex`, as an optional index. -/
def findIdxAux (p : α → Bool) : List α → Option Nat
  | [] => none
  | a :: l => if p a then some 0 else (findIdxAux p l).map (fun i => i + 1)

/-- The per-student body of `saveAttendance`: upsert one marking into the
attendance table. `newId` stands for the freshly generated id used when no
record exists for the key. -/
def markOne (att : List AttRecord) (classId date studentId status userId now newId :
    String) : List AttRecord :=
  match findIdxAux (attKey classId studentId date) att with
  | some i =>
      let oldId := ((att.get? i).map (fun a => a.id)).getD newId
      att.set i ⟨oldId, classId, studentId, date, status, userId, now, none⟩
  | none => att ++ [⟨newId, classId, studentId, date, status, userId, now, none⟩]

/-- The whole `saveAttendance` batch: fold the per-student upsert over the
submitted (student, status, generated id) toggles. -/
def saveAttendance (att : List AttRecord) (classId date userId now : String)
    (marks : List (String × String × String)) : List AttRecord :=
  marks.foldl (fun acc m => markOne acc classId date m.1 m.2.1 userId now m.2.2) att

/-! ## Teacher gradebook weights

`renderClassGradebook` in the gradebook component: over the class's
non-draft assignments, for each assignment with a grade for the student,

    totalWeightedScore += (grade.points / grade.max_points) * (grade.weight || a.weight || 0.25);
    totalWeight += (grade.weight || a.weight || 0.25);

JavaScript `||` skips a weight that is missing, null, or 0. -/

/-- An assignment record, with the fields the gradebook reads. A missing
or null weight is `none`. -/
structure Assignment where
  id : String
  class_id : String
  title : String
  status : String
  weight : Option ℚ
deriving DecidableEq

/-- A grade record as the teacher gradebook reads it. A missing or null
weight is `none`. -/
structure Grade where
  id : String
  student_id : String
  class_id : String
  assignment_id : String
  points : ℚ
  max_points : ℚ
  weight : Option ℚ
deriving DecidableEq

/-- JavaScript truthiness of an optional number: missing, null and 0 are
falsy. -/
def jsTruthy (o : Option ℚ) : Option ℚ :=
  match o with
  | some w => if w = 0 then none else some w
  | none => none

/-- `grade.weight || a.weight || 0.25`: the first truthy weight, with the
default 0.25. -/
def effWeight (gw aw : Option ℚ) : ℚ :=
  ((jsTruthy gw).orElse (fun _ => jsTruthy aw)).getD (1/4)

/-- The fold body of the teacher gradebook row: if the student has a grade
for the assignment, add its weighted ratio and its effective weight. -/
def gbStep (grades : List Grade) (sid : String) (acc : ℚ × ℚ) (a : Assignment) :
    ℚ × ℚ :=
  match grades.find? (fun g => g.student_id == sid && g.assignment_id == a.id) with
  | some g => (acc.1 + g.points / g.max_points * effWeight g.weight a.weight,
               acc.2 + effWeight g.weight a.weight)
  | none => acc

/-- The class's displayed assignments: same class, not draft. -/
def classAssignments (assignments : List Assignment) (classId : String) :
    List Assignment :=
  assignments.filter (fun a => a.class_id == classId && a.status != "draft")

/-- The weighted average shown for one student row of the teacher
gradebook; `none` is the placeholder dash. -/
def gradebookAvg (grades : List Grade) (assignments : List Assignment)
    (classId sid : String) : Option ℚ :=
  let acc := (classAssignments assignments classId).foldl (gbStep grades sid) (0, 0)
  if 0 < acc.2 then some (acc.1 / acc.2 * 100) else none

/-! ## Record store load path

`loadData` in the storage module: a localStorage overlay is tried first
(malformed overlay JSON is dropped and the baseline is fetched); a fetch
with not-ok status logs a warning and yields `[]`; on an ok status the
body is parsed by `response.json()`, whose failure propagates out of
`loadData`. The overlay cache and the fetch are modelled as oracles; an
`Except.error` result is a rejected promise. -/

/-- The outcome of fetching the baseline dataset: a not-ok status, an ok
response whose body parses to records, or an ok response whose body is
not valid JSON. -/
inductive FetchResult (α : Type) where
  | notOk (status : Nat)
  | okJson (data : List α)
  | okMalformed
deriving DecidableEq

/-- The fetch leg of `loadData`: the pair is (result, warning logged). -/
def loadFetch : FetchResult α → Except Unit (List α) × Bool
  | .notOk _ => (Except.ok [], true)
  | .okJson d => (Except.ok d, false)
  | .okMalformed => (Except.error (), false)

/-- `loadData`: `cached` is the overlay slot (`some (some d)` a parseable
overlay, `some none` a malformed one, `none` absent). -/
def loadData (cached : Option (Option (List α))) (fetch : FetchResult α) :
    Except Unit (List α) × Bool :=
  match cached with
  | some (some d) => (Except.ok d, false)
  | some none => loadFetch fetch
  | none => loadFetch fetch

/-! ## CSV codec

Serialization is `exportCSV` in the storage module; parsing is `parseCSV`
in the import script. Text is modelled as lists of characters. -/

/-- The characters JavaScript `trim` removes and `\s` matches: ECMAScript
WhiteSpace (tab, VT, FF, space, NBSP, ZWNBSP, and the Unicode
space-separator category) plus the line terminators LF, CR, LS, PS. -/
def isWS (c : Char) : Bool :=
  c = ' ' || c = '\t' || c = '\n' || c = '\r' || c = '\x0b' || c = '\x0c'
  || c = '\u00A0' || c = '\u1680'
  || c = '\u2000' || c = '\u2001' || c = '\u2002' || c = '\u2003'
  || c = '\u2004' || c = '\u2005' || c = '\u2006' || c = '\u2007'
  || c = '\u2008' || c = '\u2009' || c = '\u200A'
  || c = '\u2028' || c = '\u2029' || c = '\u202F' || c = '\u205F'
  || c = '\u3000' || c = '\uFEFF'

/-- JavaScript `String.prototype.trim` on a character list. -/
def trimChars (l : List Char) : List Char :=
  ((l.dropWhile isWS).reverse.dropWhile isWS).reverse

/-- Append a finished row unless every (already trimmed) field is empty:
`if (row.some(f => f !== '')) rows.push(row)`. -/
def maybePushRow (rows : List (List (List Char))) (row : List (List Char)) :
    List (List (List Char)) :=
  if row.any (fun f => !f.isEmpty) then rows ++ [row] else rows

/-- The normalization in `parseCSV`: CRLF, then stray CR, to LF. -/
def normNL : List Char → List Char
  | [] => []
  | '\r' :: '\n' :: rest => '\n' :: normNL rest
  | '\r' :: rest => '\n' :: normNL rest
  | c :: rest => c :: normNL rest

/-- The character loop of `parseCSV`: remaining input, the in-quotes flag,
the accumulated field, the accumulated row, and the finished rows. -/
def csvRun : List Char → Bool → List Char → List (List Char) →
    List (List (List Char)) → List (List (List Char))
  | [], _, field, row, rows => maybePushRow rows (row ++ [trimChars field])
  | '"' :: '"' :: rest, true, field, row, rows =>
      csvRun rest true (field ++ ['"']) row rows
  | '"' :: rest, true, field, row, rows => csvRun rest false field row rows
  | c :: rest, true, field, row, rows => csvRun rest true (field ++ [c]) row rows
  | c :: rest, false, field, row, rows =>
      if c = '"' then csvRun rest true field row rows
      else if c = ',' then csvRun rest false [] (row ++ [trimChars field]) rows
      else if c = '\n' then
        csvRun rest false [] [] (maybePushRow rows (row ++ [trimChars field]))
      else csvRun rest false (field ++ [c]) row rows

/-- `parseCSV` on a character list. -/
def parseCSVChars (text : List Char) : List (List (List Char)) :=
  csvRun (normNL text) false [] [] []

/-- `parseCSV` on a string: normalize newlines, run the loop. -/
def parseCSV (text : String) : List (List String) :=
  (parseCSVChars text.toList).map (fun r => r.map (fun f => String.mk f))

/-- Double every double quote, for quoted serialization. -/
def doubleQuotes : List Char → List Char
  | [] => []
  | c :: rest =>
      if c = '"' then '"' :: '"' :: doubleQuotes rest else c :: doubleQuotes rest

/-- `exportCSV` field escaping: wrap in quotes, doubling inner quotes,
exactly when the value contains a comma, a quote, or a newline. -/
def escapeField (s : List Char) : List Char :=
  if s.contains ',' || s.contains '"' || s.contains '\n' then
    '"' :: (doubleQuotes s ++ ['"'])
  else s

/-- Join fields or lines with a separator character. -/
def joinSep (sep : Char) : List (List Char) → List Char
  | [] => []
  | [f] => f
  | f :: rest => f ++ sep :: joinSep sep rest

/-- `row[c] ?? ''` (then stringified): field of a record, defaulting to
the empty string. A record is an association list of column to value. -/
def getField (r : List (List Char × List Char)) (c : List Char) : List Char :=
  (r.lookup c).getD []

/-- The text `exportCSV` builds: header row of the raw column names, then
one line per record with escaped field values, joined by LF. -/
def csvContent (data : List (List (List Char × List Char)))
    (cols : List (List Char)) : List Char :=
  joinSep '\n'
    (joinSep ',' cols ::
      data.map (fun row => joinSep ',' (cols.map (fun c => escapeField (getField row c)))))

/-- `exportCSV`: nothing at all for an empty record set, otherwise the CSV
text over the given columns (or the first record's keys if none given). -/
def exportCSV (data : List (List (List Char × List Char)))
    (columns : Option (List (List Char))) : Option (List Char) :=
  if data.isEmpty then none
  else
    let cols := columns.getD (((data.head?).getD []).map Prod.fst)
    some (csvContent data cols)

/-- A serialized field value that survives the parser's trimming: it is
trim-invariant and contains no carriage return. -/
def goodValue (v : List Char) : Prop := trimChars v = v ∧ '\r' ∉ v

/-- A column name that survives the unescaped header row: trim-invariant
and free of CR, comma, quote and newline. -/
def goodHeader (c : List Char) : Prop :=
  trimChars c = c ∧ '\r' ∉ c ∧ ',' ∉ c ∧ '"' ∉ c ∧ '\n' ∉ c

instance (v : List Char) : Decidable (goodValue v) := by
  unfold goodValue
  infer_instance

instance (c : List Char) : Decidable (goodHeader c) := by
  unfold goodHeader
  infer_instance

/-! ## CSV-to-JSON import CLI

`scripts/csv-to-json.js`: field-mapping tables, `convertCSV`, and the
command-line driver. `Number(...)` is a platform primitive and is passed
in as an oracle `numParse` (`none` models NaN). -/

/-- A converted field value: string or coerced number. -/
inductive CsvVal where
  | str (s : String)
  | num (q : ℚ)
deriving DecidableEq

/-- The `users` header map. -/
def usersMap : List (String × String) :=
  [("student_id", "id"), ("teacher_id", "id"), ("user_id", "id"), ("id", "id"),
   ("username", "username"), ("user_name", "username"), ("login", "username"),
   ("display_name", "display_name"), ("name", "display_name"),
   ("full_name", "display_name"),
   ("first_name", "_first_name"), ("last_name", "_last_name"),
   ("email", "email"), ("email_address", "email"),
   ("role", "role"), ("user_type", "role"), ("type", "role"),
   ("year_level", "year_level"), ("grade_level", "year_level"), ("year", "year_level")]

/-- The `classes` header map. -/
def classesMap : List (String × String) :=
  [("class_id", "id"), ("id", "id"), ("code", "id"),
   ("class_name", "name"), ("name", "name"), ("subject", "name"),
   ("teacher_id", "teacher_id"), ("teacher", "teacher_id"),
   ("room", "room"), ("classroom", "room"),
   ("year_level", "year_level"), ("grade", "year_level")]

/-- The `enrollments` header map. -/
def enrollmentsMap : List (String × String) :=
  [("enrollment_id", "id"), ("id", "id"),
   ("student_id", "student_id"), ("student", "student_id"),
   ("class_id", "class_id"), ("class", "class_id")]

/-- The `attendance` header map. -/
def attendanceMap : List (String × String) :=
  [("record_id", "id"), ("id", "id"),
   ("class_id", "class_id"), ("class", "class_id"),
   ("student_id", "student_id"), ("student", "student_id"),
   ("date", "date"),
   ("status", "status"), ("attendance_status", "status"),
   ("marked_by", "marked_by"), ("teacher", "marked_by")]

/-- The `assignments` header map. -/
def assignmentsMap : List (String × String) :=
  [("assignment_id", "id"), ("id", "id"),
   ("class_id", "class_id"), ("class", "class_id"),
   ("title", "title"), ("name", "title"),
   ("description", "description"), ("details", "description"),
   ("due_date", "due_date"), ("due", "due_date"),
   ("max_points", "max_points"), ("points", "max_points"),
   ("total_marks", "max_points"),
   ("weight", "weight"), ("status", "status")]

/-- The `submissions` header map. -/
def submissionsMap : List (String × String) :=
  [("submission_id", "id"), ("id", "id"), ("assignment_id", "assignment_id"),
   ("student_id", "student_id"), ("student", "student_id"),
   ("submitted_at", "submitted_at"), ("submission_date", "submitted_at"),
   ("content", "content"), ("body", "content"), ("text", "content"),
   ("status", "status")]

/-- The `grades` header map. -/
def gradesMap : List (String × String) :=
  [("grade_id", "id"), ("id", "id"), ("assignment_id", "assignment_id"),
   ("student_id", "student_id"), ("student", "student_id"),
   ("points", "points"), ("score", "points"), ("mark", "points"),
   ("letter", "letter"), ("grade", "letter"),
   ("feedback", "feedback"), ("comment", "feedback"), ("comments", "feedback")]

/-- The `timetable` header map. -/
def timetableMap : List (String × String) :=
  [("slot_id", "id"), ("id", "id"),
   ("class_id", "class_id"), ("class", "class_id"),
   ("day", "day"), ("day_of_week", "day"),
   ("start_time", "start_time"), ("start", "start_time"),
   ("end_time", "end_time"), ("end", "end_time"),
   ("room", "room"), ("location", "room")]

/-- The `announcements` header map. -/
def announcementsMap : List (String × String) :=
  [("announcement_id", "id"), ("id", "id"),
   ("title", "title"), ("subject", "title"),
   ("body", "body"), ("content", "body"), ("message", "body"),
   ("author_id", "author_id"), ("author", "author_id"),
   ("priority", "priority"), ("status", "status")]

/-- `FIELD_MAPS`, in source key order. -/
def FIELD_MAPS : List (String × List (String × String)) :=
  [("users", usersMap), ("classes", classesMap), ("enrollments", enrollmentsMap),
   ("attendance", attendanceMap), ("assignments", assignmentsMap),
   ("submissions", submissionsMap), ("grades", gradesMap),
   ("timetable", timetableMap), ("announcements", announcementsMap)]

/-- The canonical fields coerced through `Number(value) || 0`. -/
def numericFields : List String :=
  ["max_points", "points", "weight", "year_level"]

/-- Collapse each whitespace run to one underscore (the flag says whether
the previous character was whitespace). -/
def squashWS : Bool → List Char → List Char
  | _, [] => []
  | prev, c :: rest =>
      if isWS c then
        if prev then squashWS true rest else '_' :: squashWS true rest
      else c :: squashWS false rest

/-- Header normalization: lowercase, whitespace runs to underscores. -/
def normalizeHeader (h : String) : String :=
  String.mk (squashWS false (h.toList.map Char.toLower))

/-- JavaScript object assignment `record[k] = v` on an association list:
overwrite in place, else append. -/
def setField : List (String × CsvVal) → String → CsvVal → List (String × CsvVal)
  | [], k, v => [(k, v)]
  | (k0, v0) :: rest, k, v =>
      if k0 = k then (k0, v) :: rest else (k0, v0) :: setField rest k v

/-- JavaScript truthiness of a record field: absent, the empty string and
0 are falsy. -/
def fieldTruthy : Option CsvVal → Bool
  | none => false
  | some (CsvVal.str s) => !s.isEmpty
  | some (CsvVal.num q) => decide (q ≠ 0)

/-- The per-column loop of `convertCSV`: headers and row values in step,
accumulating the record and the first/last-name helpers. -/
def convFields (numParse : String → Option ℚ) (fieldMap : List (String × String)) :
    List String → List String → List (String × CsvVal) → String → String →
    List (String × CsvVal) × String × String
  | [], _, record, fn, ln => (record, fn, ln)
  | h :: hs, vs, record, fn, ln =>
      let value := (vs.head?).getD ""
      let rest := vs.tail
      match fieldMap.lookup h with
      | none => convFields numParse fieldMap hs rest record fn ln
      | some mapped =>
          if mapped = "_first_name" then
            convFields numParse fieldMap hs rest record value ln
          else if mapped = "_last_name" then
            convFields numParse fieldMap hs rest record fn value
          else if numericFields.contains mapped then
            convFields numParse fieldMap hs rest
              (setField record mapped (CsvVal.num ((numParse value).getD 0))) fn ln
          else
            convFields numParse fieldMap hs rest
              (setField record mapped (CsvVal.str value)) fn ln

/-- One data row of `convertCSV`: map the fields, synthesize
`display_name` from first/last name if absent, generate an id if absent
(`i` is the 1-based row index). -/
def convertRow (numParse : String → Option ℚ) (fieldMap : List (String × String))
    (headers : List String) (entity : String) (i : Nat) (row : List String) :
    List (String × CsvVal) :=
  let step := convFields numParse fieldMap headers row [] "" ""
  let record := step.1
  let fn := step.2.1
  let ln := step.2.2
  let record2 :=
    if !fieldTruthy (record.lookup "display_name") && (fn != "" || ln != "") then
      setField record "display_name"
        (CsvVal.str (String.mk (trimChars (fn ++ " " ++ ln).toList)))
    else record
  if fieldTruthy (record2.lookup "id") then record2
  else setField record2 "id" (CsvVal.str (entity.take 1 ++ "-imported-" ++ toString i))

/-- The messages `convertCSV` prints for an unrecognized entity name. -/
def unknownEntityMsgs (entity : String) : List String :=
  ["Unknown entity: " ++ entity,
   "Available: " ++ String.intercalate ", " (FIELD_MAPS.map Prod.fst)]

/-- What JavaScript property access `FIELD_MAPS[entity]` can resolve to:
an own entry of the object literal, or a member inherited from
`Object.prototype` (a function or object — truthy, but not a field map). -/
inductive FieldMapVal where
  | own (m : List (String × String))
  | inherited (name : String)
deriving DecidableEq

/-- The property names every plain object inherits from
`Object.prototype`, reachable by bracket access on `FIELD_MAPS`. -/
def objectProtoMembers : List String :=
  ["constructor", "hasOwnProperty", "isPrototypeOf", "propertyIsEnumerable",
   "toLocaleString", "toString", "valueOf", "__proto__",
   "__defineGetter__", "__defineSetter__", "__lookupGetter__", "__lookupSetter__"]

/-- `FIELD_MAPS[entity]` with JavaScript lookup semantics: an own key
first, then the `Object.prototype` chain, else undefined. -/
def fieldMapsAccess (entity : String) : Option FieldMapVal :=
  match FIELD_MAPS.lookup entity with
  | some m => some (FieldMapVal.own m)
  | none =>
      if objectProtoMembers.contains entity then some (FieldMapVal.inherited entity)
      else none

/-- What `convertCSV` hands back to the driver: records mapped through a
real field map, or the records built against an inherited
`Object.prototype` member (the loop still pushes one record per data row;
their fields come from engine-level properties of that member, summarized
here by its name and the row count). -/
inductive ConvOut where
  | recs (records : List (List (String × CsvVal)))
  | protoRecs (protoMember : String) (nRows : Nat)
deriving DecidableEq

/-- `records.length` as printed by the driver. -/
def ConvOut.count : ConvOut → Nat
  | recs l => l.length
  | protoRecs _ n => n

/-- `convertCSV`: an entity name reaching neither an own `FIELD_MAPS`
entry nor an inherited `Object.prototype` member is rejected (its
`process.exit(1)` modelled as the error branch); an own entry maps every
data row; an inherited member is truthy, so the rejection is skipped and
conversion proceeds against it. -/
def convertCSV (numParse : String → Option ℚ) (rows : List (List String))
    (entity : String) : Except (List String) ConvOut :=
  match fieldMapsAccess entity with
  | none => Except.error (unknownEntityMsgs entity)
  | some (FieldMapVal.own fieldMap) =>
      let headers := ((rows.head?).getD []).map normalizeHeader
      Except.ok (ConvOut.recs
        ((rows.drop 1).enum.map
          (fun p => convertRow numParse fieldMap headers entity (p.1 + 1) p.2)))
  | some (FieldMapVal.inherited name) =>
      Except.ok (ConvOut.protoRecs name (rows.length - 1))

/-- The observable outcome of one CLI invocation. -/
structure CliResult where
  code : Nat
  logs : List String
  errors : List String
  writes : List (String × ConvOut)
deriving DecidableEq

/-- The usage banner printed when fewer than two arguments are given. -/
def usageLines : String :=
  "Usage: node scripts/csv-to-json.js <input.csv> <entity> [output.json] - Entities: "
    ++ String.intercalate ", " (FIELD_MAPS.map Prod.fst)

/-- The CLI driver: argument check, input existence check, parse, convert,
write. `inputExists` and `inputText` stand for the filesystem; an empty
parse crashes at the column-count log (`rows[0].length` on undefined). -/
def cliMain (numParse : String → Option ℚ) (args : List String)
    (inputExists : Bool) (inputText : String) : CliResult :=
  if args.length < 2 then
    { code := 0, logs := [usageLines], errors := [], writes := [] }
  else
    let inputFile := (args.head?).getD ""
    let entity := ((args.drop 1).head?).getD ""
    if !inputExists then
      { code := 1, logs := [],
        errors := ["[FAIL] File not found: " ++ inputFile], writes := [] }
    else
      let rows := parseCSV inputText
      let logC := "Converting " ++ inputFile ++ " -> " ++ entity
      match rows.head? with
      | none =>
          { code := 1, logs := [logC],
            errors := ["TypeError: Cannot read properties of undefined"],
            writes := [] }
      | some row0 =>
          let logs1 := [logC,
            "Parsed " ++ toString (rows.length - 1) ++ " data rows ("
              ++ toString row0.length ++ " columns)"]
          match convertCSV numParse rows entity with
          | Except.error msgs =>
              { code := 1, logs := logs1, errors := msgs, writes := [] }
          | Except.ok records =>
              let output := ((args.drop 2).head?).getD
                ("data/sample/" ++ entity ++ ".json")
              { code := 0,
                logs := logs1 ++ ["Converted " ++ toString records.count
                  ++ " records", "Written to " ++ output],
                errors := [], writes := [(output, records)] }

/-! ## Theorems: grading engine -/

/-- The pair-valued fold of the student grade loop computes the two sums. -/
theorem sgFold_eq_sums (l : List GradeEntry) (a b : ℚ) :
    l.foldl sgStep (a, b) =
      (a + (l.map (fun e => e.points / e.max_points * e.weight)).sum,
       b + (l.map (fun e => e.weight)).sum) := by
  induction l generalizing a b with
  | nil => simp
  | cons g t ih =>
      simp only [List.foldl_cons, sgStep, List.map_cons, List.sum_cons, ih,
        Prod.mk.injEq]
      constructor <;> ring

/-- C1: the weighted percentage equals
(Σ (points/max_points) * weight) / (Σ weight) * 100 whenever the sum of
weights is positive, and is the placeholder `none` otherwise; the two
entries (80/100, weight 1/2) and (60/100, weight 1/2) yield 70, and an
empty entry set yields the placeholder. -/
theorem weightedPct_spec :
    (∀ entries : List GradeEntry,
        weightedPct entries =
          if 0 < (entries.map (fun e => e.weight)).sum then
            some (((entries.map (fun e => e.points / e.max_points * e.weight)).sum /
                    (entries.map (fun e => e.weight)).sum) * 100)
          else none)
    ∧ weightedPct [⟨80, 100, 1/2⟩, ⟨60, 100, 1/2⟩] = some 70
    ∧ weightedPct [] = none := by
  refine ⟨fun entries => ?_, by norm_num [weightedPct, sgFold, sgStep], by rfl⟩
  have h := sgFold_eq_sums entries 0 0
  simp only [zero_add] at h
  simp only [weightedPct, sgFold]
  rw [h]

/-- C2: letter-grade banding is total on the rationals with closed lower
bounds: every p ≥ 97 yields "A+", p = 93 yields "A", p = 92.999 yields
"A-", every p < 60 (negatives included) yields "F", and every p > 100
yields "A+". -/
theorem getLetterGrade_bands :
    (∀ p : ℚ, 97 ≤ p → getLetterGrade p = "A+")
    ∧ getLetterGrade 93 = "A"
    ∧ getLetterGrade (92999/1000) = "A-"
    ∧ (∀ p : ℚ, p < 60 → getLetterGrade p = "F")
    ∧ (∀ p : ℚ, 100 < p → getLetterGrade p = "A+") := by
  refine ⟨fun p hp => ?_, by norm_num [getLetterGrade], by norm_num [getLetterGrade],
    fun p hp => ?_, fun p hp => ?_⟩
  · rw [getLetterGrade, if_pos hp]
  · rw [getLetterGrade, if_neg (by linarith : ¬ p ≥ 97), if_neg (by linarith : ¬ p ≥ 93),
      if_neg (by linarith : ¬ p ≥ 90), if_neg (by linarith : ¬ p ≥ 87),
      if_neg (by linarith : ¬ p ≥ 83), if_neg (by linarith : ¬ p ≥ 80),
      if_neg (by linarith : ¬ p ≥ 77), if_neg (by linarith : ¬ p ≥ 73),
      if_neg (by linarith : ¬ p ≥ 70), if_neg (by linarith : ¬ p ≥ 67),
      if_neg (by linarith : ¬ p ≥ 63), if_neg (by linarith : ¬ p ≥ 60)]
  · rw [getLetterGrade, if_pos (by linarith : p ≥ 97)]

/-- C2 witness: the bands evaluated at 98, 50 and 101. -/
theorem getLetterGrade_bands_witness :
    getLetterGrade 98 = "A+" ∧ getLetterGrade 50 = "F" ∧ getLetterGrade 101 = "A+" :=
  ⟨getLetterGrade_bands.1 98 (by norm_num),
   getLetterGrade_bands.2.2.2.1 50 (by norm_num),
   getLetterGrade_bands.2.2.2.2 101 (by norm_num)⟩

/-! ## Theorems: roster resolution -/

/-- C5: a user is in the active roster of a class exactly when they appear
in the user table and some enrollment links them to the class with status
active; consequently a student all of whose enrollments for the class are
withdrawn never appears. -/
theorem getClassStudents_active :
    (∀ (classId : String) (es : List Enrollment) (us : List User) (u : User),
        u ∈ getClassStudents classId es us ↔
          u ∈ us ∧ ∃ e ∈ es, e.class_id = classId ∧ e.status = "active"
            ∧ e.student_id = u.id)
    ∧ ∀ (classId sid : String) (es : List Enrollment) (us : List User),
        (∀ e ∈ es, e.student_id = sid → e.class_id = classId →
          e.status = "withdrawn") →
        ∀ u ∈ getClassStudents classId es us, u.id ≠ sid := by
  have main : ∀ (classId : String) (es : List Enrollment) (us : List User) (u : User),
      u ∈ getClassStudents classId es us ↔
        u ∈ us ∧ ∃ e ∈ es, e.class_id = classId ∧ e.status = "active"
          ∧ e.student_id = u.id := by
    intro classId es us u
    simp only [getClassStudents, List.mem_filter, List.contains_eq_any_beq,
      List.any_eq_true, List.mem_map, beq_iff_eq, Bool.and_eq_true]
    constructor
    · rintro ⟨hu, x, ⟨e, ⟨he, hc, hs⟩, rfl⟩, hx⟩
      exact ⟨hu, e, he, hc, hs, hx.symm⟩
    · rintro ⟨hu, e, he, hc, hs, hid⟩
      exact ⟨hu, e.student_id, ⟨e, ⟨he, hc, hs⟩, rfl⟩, hid.symm⟩
  refine ⟨main, fun classId sid es us hw u hu => ?_⟩
  obtain ⟨-, e, he, hc, hs, hid⟩ := (main classId es us u).mp hu
  intro hcon
  have := hw e he (hid.trans hcon) hc
  rw [hs] at this
  exact absurd this (by decide)

/-- C5 witness: with one active and one withdrawn enrollment, the active
student is on the roster and a fully withdrawn student is not. -/
theorem getClassStudents_active_witness :
    (⟨"u1", "ann", "Ann", "student", true⟩ : User) ∈
      getClassStudents "c1"
        [⟨"e1", "u1", "c1", "2024-01-01", "active"⟩,
         ⟨"e2", "u2", "c1", "2024-01-01", "withdrawn"⟩]
        [⟨"u1", "ann", "Ann", "student", true⟩, ⟨"u2", "bob", "Bob", "student", true⟩]
    ∧ ∀ u ∈ getClassStudents "c1"
        [⟨"e1", "u1", "c1", "2024-01-01", "active"⟩,
         ⟨"e2", "u2", "c1", "2024-01-01", "withdrawn"⟩]
        [⟨"u1", "ann", "Ann", "student", true⟩, ⟨"u2", "bob", "Bob", "student", true⟩],
        u.id ≠ "u2" :=
  ⟨(getClassStudents_active.1 "c1" _ _ _).mpr
      ⟨by simp, ⟨"e1", "u1", "c1", "2024-01-01", "active"⟩, by simp, rfl, rfl, rfl⟩,
   getClassStudents_active.2 "c1" "u2" _ _
      (by intro e he h1 h2; fin_cases he <;> simp_all)⟩

/-! ## Theorems: attendance upsert -/

/-- `findIndex` misses a list on which the predicate is everywhere false. -/
theorem findIdxAux_eq_none {p : α → Bool} {l : List α}
    (h : ∀ a ∈ l, p a = false) : findIdxAux p l = none := by
  induction l with
  | nil => rfl
  | cons a t ih =>
      simp only [findIdxAux, h a (by simp), if_false, Bool.false_eq_true]
      rw [ih (fun x hx => h x (by simp [hx]))]
      rfl

/-- `findIndex` on a miss-everywhere front segment skips to the back segment. -/
theorem findIdxAux_append_of_none {p : α → Bool} {l1 : List α} (l2 : List α)
    (h : ∀ a ∈ l1, p a = false) :
    findIdxAux p (l1 ++ l2) = (findIdxAux p l2).map (fun i => i + l1.length) := by
  induction l1 with
  | nil => simp
  | cons a t ih =>
      have ha : p a = false := h a (by simp)
      have iht := ih (fun x hx => h x (by simp [hx]))
      have hstep : findIdxAux p (a :: (t ++ l2))
          = (findIdxAux p (t ++ l2)).map (fun i => i + 1) := by
        simp [findIdxAux, ha]
      rw [List.cons_append, hstep, iht]
      cases findIdxAux p l2 with
      | none => rfl
      | some v =>
          show some (v + t.length + 1) = some (v + (a :: t).length)
          rw [List.length_cons, Nat.add_assoc]

/-- Setting right past a front segment rewrites the back's head. -/
theorem set_append_length (l : List α) (r x : α) :
    (l ++ [r]).set l.length x = l ++ [x] := by
  induction l with
  | nil => rfl
  | cons a t ih => simp [List.set, ih]

/-- Reading right past a front segment reads the back's head. -/
theorem get?_append_length (l : List α) (r : α) : (l ++ [r]).get? l.length = some r := by
  induction l with
  | nil => rfl
  | cons a t ih => simp [ih]

/-- Reading back an in-bounds overwrite. -/
theorem get?_set_self (l : List α) (i : Nat) (a : α) (h : i < l.length) :
    (l.set i a).get? i = some a := by
  induction l generalizing i with
  | nil => simp at h
  | cons b t ih =>
      cases i with
      | zero => rfl
      | succ j => simpa using ih j (by simpa using h)

/-- C4: starting from a table with no record for the (class, student, date)
triple, marking that triple in two successive saves with two different
statuses leaves exactly one record for the triple, carrying the second
status and the id generated by the first marking. -/
theorem attendance_upsert_twice (att : List AttRecord)
    (c d s st1 st2 u1 u2 t1 t2 id1 id2 : String)
    (hnone : ∀ a ∈ att, attKey c s d a = false) (_hst : st1 ≠ st2) :
    (saveAttendance (saveAttendance att c d u1 t1 [(s, st1, id1)])
        c d u2 t2 [(s, st2, id2)]).filter (attKey c s d)
      = [⟨id1, c, s, d, st2, u2, t2, none⟩] := by
  have hkey : attKey c s d (⟨id1, c, s, d, st1, u1, t1, none⟩ : AttRecord) = true := by
    simp [attKey]
  have h1 : saveAttendance att c d u1 t1 [(s, st1, id1)]
      = att ++ [⟨id1, c, s, d, st1, u1, t1, none⟩] := by
    simp [saveAttendance, markOne, findIdxAux_eq_none hnone]
  have hfind : findIdxAux (attKey c s d) (att ++ [⟨id1, c, s, d, st1, u1, t1, none⟩])
      = some att.length := by
    rw [findIdxAux_append_of_none _ hnone]
    simp [findIdxAux, hkey]
  have h2 : saveAttendance (att ++ [⟨id1, c, s, d, st1, u1, t1, none⟩]) c d u2 t2
      [(s, st2, id2)] = att ++ [⟨id1, c, s, d, st2, u2, t2, none⟩] := by
    simp only [saveAttendance, List.foldl_cons, List.foldl_nil, markOne, hfind,
      get?_append_length]
    simp [set_append_length]
  rw [h1, h2, List.filter_append]
  rw [List.filter_eq_nil_iff.mpr (by intro a ha; simp [hnone a ha])]
  simp [attKey]

/-- C4 witness: a concrete empty table, marked present then absent. -/
theorem attendance_upsert_twice_witness :
    (saveAttendance (saveAttendance [] "c1" "2024-03-01" "t9" "T1"
        [("s1", "present", "att-1")]) "c1" "2024-03-01" "t9" "T2"
        [("s1", "absent", "att-2")]).filter (attKey "c1" "s1" "2024-03-01")
      = [⟨"att-1", "c1", "s1", "2024-03-01", "absent", "t9", "T2", none⟩] :=
  attendance_upsert_twice [] "c1" "2024-03-01" "s1" "present" "absent" "t9" "t9"
    "T1" "T2" "att-1" "att-2" (by intro a ha; simp at ha) (by decide)

/-- C10: when the save overwrites an existing record for the key, the new
record keeps only the old record's id; status, recorded_by and recorded_at
take the new marking's values and note is reset to `none`, discarding any
stored note. -/
theorem attendance_overwrite_note_reset (att : List AttRecord)
    (c d s st u now nid : String) (i : Nat) (old : AttRecord)
    (hidx : findIdxAux (attKey c s d) att = some i) (hget : att.get? i = some old) :
    markOne att c d s st u now nid = att.set i ⟨old.id, c, s, d, st, u, now, none⟩
    ∧ (markOne att c d s st u now nid).get? i
        = some ⟨old.id, c, s, d, st, u, now, none⟩ := by
  have hget2 : att[i]? = some old := by rw [← List.get?_eq_getElem?]; exact hget
  have heq : markOne att c d s st u now nid
      = att.set i ⟨old.id, c, s, d, st, u, now, none⟩ := by
    simp [markOne, hidx, hget2]
  refine ⟨heq, ?_⟩
  rw [heq]
  exact get?_set_self att i _ (by
    by_contra hlt
    rw [List.get?_eq_none.mpr (by omega)] at hget
    exact Option.noConfusion hget)

/-- C10 witness: overwriting a record that carried a note discards the note. -/
theorem attendance_overwrite_note_reset_witness :
    markOne [⟨"a1", "c1", "s1", "2024-03-01", "present", "t1", "T1", some "saw nurse"⟩]
        "c1" "2024-03-01" "s1" "late" "t2" "T2" "att-9"
      = [⟨"a1", "c1", "s1", "2024-03-01", "late", "t2", "T2", none⟩] := by
  have h := attendance_overwrite_note_reset
    [⟨"a1", "c1", "s1", "2024-03-01", "present", "t1", "T1", some "saw nurse"⟩]
    "c1" "2024-03-01" "s1" "late" "t2" "T2" "att-9" 0
    ⟨"a1", "c1", "s1", "2024-03-01", "present", "t1", "T1", some "saw nurse"⟩
    (by decide) (by decide)
  simpa using h.1

/-! ## Theorems: teacher gradebook weights (C9) -/

/-- C9 counterexample: a gradebook with a zero-weight grade (falling back
to the assignment weight 1/2) whose computed weighted average is exactly
the average computed without that grade — the zero-weight grade does not
change the value. -/
theorem gradebook_zero_weight_same_avg :
    gradebookAvg
        [⟨"g1", "s1", "c1", "a1", 80, 100, some (1/2)⟩,
         ⟨"g2", "s1", "c1", "a2", 80, 100, some 0⟩]
        [⟨"a1", "c1", "HW1", "published", some (1/2)⟩,
         ⟨"a2", "c1", "HW2", "published", some (1/2)⟩] "c1" "s1"
      = gradebookAvg
        [⟨"g1", "s1", "c1", "a1", 80, 100, some (1/2)⟩]
        [⟨"a1", "c1", "HW1", "published", some (1/2)⟩,
         ⟨"a2", "c1", "HW2", "published", some (1/2)⟩] "c1" "s1"
    ∧ gradebookAvg
        [⟨"g1", "s1", "c1", "a1", 80, 100, some (1/2)⟩,
         ⟨"g2", "s1", "c1", "a2", 80, 100, some 0⟩]
        [⟨"a1", "c1", "HW1", "published", some (1/2)⟩,
         ⟨"a2", "c1", "HW2", "published", some (1/2)⟩] "c1" "s1" = some 80 := by
  have e1 : ("published" != "draft") = true := by simp
  have e2 : ("a1" == "a2") = false := by simp
  constructor <;>
    norm_num [gradebookAvg, classAssignments, gbStep, effWeight, jsTruthy, List.find?,
      List.filter, e1, e2]

/-- C9 amended: a grade whose own weight is missing or 0 is not excluded:
the fold adds its score ratio and its effective weight — the assignment's
weight, or 0.25 when that is missing or 0 — to both accumulators, and
that effective weight is positive whenever the assignment weight is not
negative. -/
theorem gradebook_zero_weight_included (grades : List Grade) (sid : String)
    (a : Assignment) (g : Grade) (acc : ℚ × ℚ)
    (hfind : grades.find? (fun x => x.student_id == sid && x.assignment_id == a.id)
      = some g)
    (hgw : g.weight = none ∨ g.weight = some 0)
    (haw : ∀ w, a.weight = some w → 0 ≤ w) :
    gbStep grades sid acc a
      = (acc.1 + g.points / g.max_points * effWeight g.weight a.weight,
         acc.2 + effWeight g.weight a.weight)
    ∧ effWeight g.weight a.weight
        = (match a.weight with
           | some w => if w = 0 then 1/4 else w
           | none => 1/4)
    ∧ 0 < effWeight g.weight a.weight := by
  have htr : jsTruthy g.weight = none := by
    rcases hgw with h | h <;> simp [jsTruthy, h]
  have heff : effWeight g.weight a.weight
      = (match a.weight with
         | some w => if w = 0 then 1/4 else w
         | none => 1/4) := by
    unfold effWeight
    rw [htr]
    cases haw2 : a.weight with
    | none => simp [jsTruthy]
    | some w => by_cases hw : w = 0 <;> simp [jsTruthy, hw]
  refine ⟨by simp [gbStep, hfind], heff, ?_⟩
  rw [heff]
  cases haw2 : a.weight with
  | none => norm_num
  | some w =>
      have := haw w haw2
      by_cases hw : w = 0
      · simp [hw]
      · simp only [hw, if_false]
        exact lt_of_le_of_ne this (Ne.symm hw)

/-- C9 amended witness: the zero-weight grade g2 enters the fold with the
assignment weight 1/2. -/
theorem gradebook_zero_weight_included_witness :
    gbStep [⟨"g2", "s1", "c1", "a2", 80, 100, some 0⟩] "s1" (0, 0)
        ⟨"a2", "c1", "HW2", "published", some (1/2)⟩
      = (80 / 100 * (1/2), 1/2)
    ∧ (0 : ℚ) < 1/2 := by
  have h := gradebook_zero_weight_included
    [⟨"g2", "s1", "c1", "a2", 80, 100, some 0⟩] "s1"
    ⟨"a2", "c1", "HW2", "published", some (1/2)⟩
    ⟨"g2", "s1", "c1", "a2", 80, 100, some 0⟩ (0, 0)
    (by simp [List.find?]) (Or.inr rfl)
    (by intro w hw; injection hw with hw2; rw [← hw2]; norm_num)
  refine ⟨?_, by norm_num⟩
  rw [h.1]
  norm_num [effWeight, jsTruthy]

/-! ## Theorems: record store load path (C8) -/

/-- C8 counterexample: with no overlay and an ok fetch whose body is not
valid JSON, `loadData` rejects (the parse error propagates) and logs no
warning — it does not return the empty sequence. -/
theorem loadData_malformed_rejects :
    loadData (α := Nat) none FetchResult.okMalformed = (Except.error (), false) := rfl

/-- C8 amended: with no overlay, a not-ok fetch degrades to the empty
sequence with a warning, while an ok fetch whose body is not valid JSON
makes `loadData` reject instead of returning empty. -/
theorem loadData_failure_modes (α : Type) (s : Nat) :
    loadData (α := α) none (FetchResult.notOk s) = (Except.ok [], true)
    ∧ loadData (α := α) none FetchResult.okMalformed = (Except.error (), false) :=
  ⟨rfl, rfl⟩

/-! ## Theorems: import CLI (C6, C7) -/

/-- Association-list lookup misses any key outside the key column. -/
theorem lookup_eq_none_of_not_mem {α β : Type} [BEq α] [LawfulBEq α]
    (l : List (α × β)) (k : α) (h : k ∉ l.map Prod.fst) : l.lookup k = none := by
  induction l with
  | nil => rfl
  | cons p t ih =>
      have hne : (k == p.1) = false := by
        rcases p with ⟨a, b⟩
        exact beq_eq_false_iff_ne.mpr (by intro hk; exact h (by simp [hk]))
      rcases p with ⟨a, b⟩
      simp only [List.lookup, hne]
      exact ih (fun hk => h (by simp [List.map_cons]; right; simpa using hk))

/-- For an entity name outside the nine recognized names that also
reaches no inherited `Object.prototype` member, the import CLI exits with
code 1, prints the error listing exactly the recognized names, and writes
nothing. Names such as toString escape this rejection — see
`cli_proto_entity_accepted`, the C6 code bug. -/
theorem cli_unknown_entity_rejected (numParse : String → Option ℚ)
    (inputFile entity txt : String) (rest : List String)
    (hrows : parseCSV txt ≠ [])
    (hent : entity ∉ ["users", "classes", "enrollments", "assignments",
      "submissions", "attendance", "grades", "timetable", "announcements"])
    (hproto : entity ∉ objectProtoMembers) :
    (cliMain numParse ([inputFile, entity] ++ rest) true txt).code = 1
    ∧ (cliMain numParse ([inputFile, entity] ++ rest) true txt).errors
        = ["Unknown entity: " ++ entity,
           "Available: " ++ String.intercalate ", " (FIELD_MAPS.map Prod.fst)]
    ∧ (cliMain numParse ([inputFile, entity] ++ rest) true txt).writes = []
    ∧ ∀ e, e ∈ FIELD_MAPS.map Prod.fst ↔ e ∈ ["users", "classes", "enrollments",
        "assignments", "submissions", "attendance", "grades", "timetable",
        "announcements"] := by
  have hmem : ∀ e : String, e ∈ FIELD_MAPS.map Prod.fst ↔ e ∈ ["users", "classes",
      "enrollments", "assignments", "submissions", "attendance", "grades",
      "timetable", "announcements"] := by
    intro e
    show e ∈ ["users", "classes", "enrollments", "attendance", "assignments",
      "submissions", "grades", "timetable", "announcements"] ↔ _
    simp only [List.mem_cons, List.not_mem_nil, or_false]
    tauto
  have hent2 : entity ∉ FIELD_MAPS.map Prod.fst := fun hc => hent ((hmem entity).mp hc)
  have hlook : fieldMapsAccess entity = none := by
    unfold fieldMapsAccess
    rw [lookup_eq_none_of_not_mem FIELD_MAPS entity hent2,
      if_neg (by simpa using hproto)]
  have hlen : ¬ (([inputFile, entity] ++ rest).length < 2) := by
    simp only [List.length_append, List.length_cons, List.length_nil]
    omega
  obtain ⟨r0, rtail, hr⟩ := List.exists_cons_of_ne_nil hrows
  refine ⟨?_, ?_, ?_, hmem⟩ <;>
    · simp [cliMain, hlen, hr, convertCSV, hlook, unknownEntityMsgs]
      rw [if_neg (by omega : ¬ (rest.length + 1 + 1 < 2))]

/-- The rejection lemma at the unrecognized entity name foo on a one-row
CSV. -/
theorem cli_unknown_entity_rejected_witness :
    (cliMain (fun _ => none) ["in.csv", "foo"] true "a,b").code = 1
    ∧ (cliMain (fun _ => none) ["in.csv", "foo"] true "a,b").writes = [] := by
  have h := cli_unknown_entity_rejected (fun _ => none) "in.csv" "foo" "a,b" []
    (by decide) (by decide) (by decide)
  exact ⟨h.1, h.2.2.1⟩

/-- C6: the entity name toString is not among the nine recognized names,
yet the CLI does not reject it: bracket access resolves the inherited,
truthy `Object.prototype.toString`, so conversion proceeds and the driver
writes the output file and exits 0 — the rejection the spec (and the
script's own entity list) requires never happens. -/
theorem cli_proto_entity_accepted :
    (cliMain (fun _ => none) ["in.csv", "toString"] true "name\nAnn").code = 0
    ∧ (cliMain (fun _ => none) ["in.csv", "toString"] true "name\nAnn").errors = []
    ∧ (cliMain (fun _ => none) ["in.csv", "toString"] true "name\nAnn").writes
        = [("data/sample/toString.json", ConvOut.protoRecs "toString" 1)]
    ∧ "toString" ∉ FIELD_MAPS.map Prod.fst :=
  ⟨rfl, rfl, rfl, by decide⟩

/-- C7 counterexample: invoked with one argument, the CLI does print
the usage banner but exits with code 0, not a non-zero code. -/
theorem cli_one_arg_exits_zero :
    (cliMain (fun _ => none) ["grades.csv"] true "").code = 0
    ∧ (cliMain (fun _ => none) ["grades.csv"] true "").logs = [usageLines] :=
  ⟨rfl, rfl⟩

/-- C7 amended: with fewer than two positional arguments the CLI prints
the usage message and exits with code 0 (not non-zero), writing nothing. -/
theorem cli_usage_exit_code (numParse : String → Option ℚ) (args : List String)
    (ex : Bool) (txt : String) (h : args.length < 2) :
    cliMain numParse args ex txt
      = { code := 0, logs := [usageLines], errors := [], writes := [] } := by
  unfold cliMain
  rw [if_pos h]

/-- C7 amended witness: no arguments at all. -/
theorem cli_usage_exit_code_witness :
    cliMain (fun _ => none) [] true ""
      = { code := 0, logs := [usageLines], errors := [], writes := [] } :=
  cli_usage_exit_code (fun _ => none) [] true "" (by decide)

/-! ## Theorems: CSV codec (C3)

Step lemmas for the parser loop, then the round trip. -/

/-- Inside quotes, a doubled value extends the field verbatim. -/
theorem csvRun_quoted_append (v : List Char) (rest f : List Char)
    (row : List (List Char)) (rows : List (List (List Char))) :
    csvRun (doubleQuotes v ++ rest) true f row rows
      = csvRun rest true (f ++ v) row rows := by
  induction v generalizing f with
  | nil => simp [doubleQuotes]
  | cons c v2 ih =>
      by_cases hc : c = '"'
      · subst hc
        show csvRun ('"' :: '"' :: (doubleQuotes v2 ++ rest)) true f row rows = _
        simp only [csvRun]
        rw [ih]
        simp
      · have hd : doubleQuotes (c :: v2) = c :: doubleQuotes v2 := by
          simp [doubleQuotes, hc]
        rw [hd, List.cons_append]
        have hstep : csvRun (c :: (doubleQuotes v2 ++ rest)) true f row rows
            = csvRun (doubleQuotes v2 ++ rest) true (f ++ [c]) row rows := by
          simp [csvRun, hc]
        rw [hstep, ih]
        simp

/-- Closing quote: a quote followed by anything but a quote leaves quote
mode with the field unchanged. -/
theorem csvRun_close (rest f : List Char) (row : List (List Char))
    (rows : List (List (List Char))) (h : rest.head? ≠ some '"') :
    csvRun ('"' :: rest) true f row rows = csvRun rest false f row rows := by
  cases rest with
  | nil => rfl
  | cons c r =>
      have hc : c ≠ '"' := by intro h2; rw [h2] at h; exact h rfl
      simp [csvRun, hc]

/-- Outside quotes, plain characters extend the field verbatim. -/
theorem csvRun_plain_append (v : List Char) (rest f : List Char)
    (row : List (List Char)) (rows : List (List (List Char)))
    (hv : ∀ c ∈ v, c ≠ '"' ∧ c ≠ ',' ∧ c ≠ '\n') :
    csvRun (v ++ rest) false f row rows = csvRun rest false (f ++ v) row rows := by
  induction v generalizing f with
  | nil => simp
  | cons c v2 ih =>
      obtain ⟨h1, h2, h3⟩ := hv c (by simp)
      have hstep : csvRun (c :: (v2 ++ rest)) false f row rows
          = csvRun (v2 ++ rest) false (f ++ [c]) row rows := by
        simp only [csvRun]
        rw [if_neg h1, if_neg h2, if_neg h3]
      rw [List.cons_append, hstep, ih _ (fun x hx => hv x (by simp [hx]))]
      simp

/-- A comma outside quotes pushes the trimmed field. -/
theorem csvRun_comma (rest f : List Char) (row : List (List Char))
    (rows : List (List (List Char))) :
    csvRun (',' :: rest) false f row rows
      = csvRun rest false [] (row ++ [trimChars f]) rows := by
  simp only [csvRun]
  simp

/-- A newline outside quotes pushes the trimmed field and finishes the
row. -/
theorem csvRun_newline (rest f : List Char) (row : List (List Char))
    (rows : List (List (List Char))) :
    csvRun ('\n' :: rest) false f row rows
      = csvRun rest false [] [] (maybePushRow rows (row ++ [trimChars f])) := by
  simp only [csvRun]
  simp

/-- A value free of comma, quote and newline serializes unescaped. -/
theorem escapeField_eq_self (v : List Char)
    (h : ',' ∉ v ∧ '"' ∉ v ∧ '\n' ∉ v) : escapeField v = v := by
  have hcond : ¬ ((v.contains ',' || v.contains '"' || v.contains '\n') = true) := by
    intro hcond
    simp only [Bool.or_eq_true] at hcond
    rcases hcond with (h1 | h2) | h3
    · exact h.1 (by simpa using h1)
    · exact h.2.1 (by simpa using h2)
    · exact h.2.2 (by simpa using h3)
  unfold escapeField
  rw [if_neg hcond]

/-- Running the parser over one escaped field, stopped at a delimiter,
recovers the raw value as the current field. -/
theorem csvRun_escape (v rest : List Char) (row : List (List Char))
    (rows : List (List (List Char))) (hq : rest.head? ≠ some '"') :
    csvRun (escapeField v ++ rest) false [] row rows
      = csvRun rest false v row rows := by
  by_cases hesc : (v.contains ',' || v.contains '"' || v.contains '\n') = true
  · have he : escapeField v = '"' :: (doubleQuotes v ++ ['"']) := by
      unfold escapeField
      rw [if_pos hesc]
    rw [he]
    have h0 : csvRun ('"' :: ((doubleQuotes v ++ ['"']) ++ rest)) false [] row rows
        = csvRun ((doubleQuotes v ++ ['"']) ++ rest) true [] row rows := by
      simp only [csvRun]
      simp
    rw [List.cons_append, h0, List.append_assoc, List.singleton_append,
      csvRun_quoted_append, List.nil_append, csvRun_close _ _ _ _ hq]
  · have hesc2 : (v.contains ',' || v.contains '"' || v.contains '\n') = false := by
      simpa using hesc
    have hmem : ',' ∉ v ∧ '"' ∉ v ∧ '\n' ∉ v := by
      simp only [Bool.or_eq_false_iff] at hesc2
      exact ⟨by simpa using hesc2.1.1, by simpa using hesc2.1.2,
        by simpa using hesc2.2⟩
    rw [escapeField_eq_self v hmem,
      csvRun_plain_append v rest [] row rows
        (fun c hcm => ⟨fun h2 => hmem.2.1 (h2 ▸ hcm), fun h2 => hmem.1 (h2 ▸ hcm),
          fun h2 => hmem.2.2 (h2 ▸ hcm)⟩),
      List.nil_append]

/-- A row with at least one nonempty field is kept. -/
theorem maybePushRow_of_nonblank (rows : List (List (List Char)))
    (row : List (List Char)) (h : ∃ v ∈ row, v ≠ []) :
    maybePushRow rows row = rows ++ [row] := by
  obtain ⟨v, hv, hne⟩ := h
  unfold maybePushRow
  rw [if_pos (List.any_eq_true.mpr ⟨v, hv, by simpa using hne⟩)]

/-- One serialized line followed by a newline appends its values as one
parsed row. -/
theorem csvRun_line_newline (vals : List (List Char))
    (htr : ∀ v ∈ vals, trimChars v = v) (hne : vals ≠ []) (rest : List Char)
    (row : List (List Char)) (rows : List (List (List Char))) :
    csvRun (joinSep ',' (vals.map escapeField) ++ '\n' :: rest) false [] row rows
      = csvRun rest false [] [] (maybePushRow rows (row ++ vals)) := by
  induction vals generalizing row with
  | nil => exact absurd rfl hne
  | cons v vs ih =>
      cases vs with
      | nil =>
          show csvRun (escapeField v ++ '\n' :: rest) false [] row rows = _
          rw [csvRun_escape _ _ _ _ (by simp), csvRun_newline, htr v (by simp)]
      | cons v2 vs2 =>
          show csvRun ((escapeField v ++ ',' ::
            joinSep ',' ((v2 :: vs2).map escapeField)) ++ '\n' :: rest)
            false [] row rows = _
          rw [List.append_assoc, List.cons_append,
            csvRun_escape _ _ _ _ (by simp), csvRun_comma, htr v (by simp),
            ih (fun x hx => htr x (by simp [hx])) (by simp) (row ++ [v])]
          simp

/-- The final serialized line (no trailing newline) pushes its values as
the last parsed row. -/
theorem csvRun_line_end (vals : List (List Char))
    (htr : ∀ v ∈ vals, trimChars v = v) (hne : vals ≠ [])
    (row : List (List Char)) (rows : List (List (List Char))) :
    csvRun (joinSep ',' (vals.map escapeField)) false [] row rows
      = maybePushRow rows (row ++ vals) := by
  induction vals generalizing row with
  | nil => exact absurd rfl hne
  | cons v vs ih =>
      cases vs with
      | nil =>
          show csvRun (escapeField v) false [] row rows = _
          rw [← List.append_nil (escapeField v),
            csvRun_escape _ _ _ _ (by decide)]
          show maybePushRow rows (row ++ [trimChars v]) = _
          rw [htr v (by simp)]
      | cons v2 vs2 =>
          show csvRun (escapeField v ++ ',' ::
            joinSep ',' ((v2 :: vs2).map escapeField)) false [] row rows = _
          rw [csvRun_escape _ _ _ _ (by simp), csvRun_comma, htr v (by simp),
            ih (fun x hx => htr x (by simp [hx])) (by simp) (row ++ [v])]
          simp

/-- Parsing all serialized lines appends every (nonblank) row of values. -/
theorem csvRun_lines (ls : List (List (List Char)))
    (hne : ∀ vals ∈ ls, vals ≠ [])
    (htr : ∀ vals ∈ ls, ∀ v ∈ vals, trimChars v = v)
    (hnb : ∀ vals ∈ ls, ∃ v ∈ vals, v ≠ [])
    (acc : List (List (List Char))) :
    csvRun (joinSep '\n' (ls.map (fun vals => joinSep ',' (vals.map escapeField))))
        false [] [] acc
      = acc ++ ls := by
  induction ls generalizing acc with
  | nil =>
      show csvRun [] false [] [] acc = acc ++ []
      simp [csvRun, maybePushRow, trimChars]
  | cons vals ls2 ih =>
      cases ls2 with
      | nil =>
          show csvRun (joinSep ',' (vals.map escapeField)) false [] [] acc = _
          rw [csvRun_line_end vals (htr vals (by simp)) (hne vals (by simp)),
            List.nil_append,
            maybePushRow_of_nonblank acc vals (hnb vals (by simp))]
      | cons l2 ls3 =>
          show csvRun (joinSep ',' (vals.map escapeField) ++ '\n' ::
              joinSep '\n' ((l2 :: ls3).map
                (fun vals => joinSep ',' (vals.map escapeField))))
              false [] [] acc = _
          rw [csvRun_line_newline vals (htr vals (by simp)) (hne vals (by simp)),
            List.nil_append,
            maybePushRow_of_nonblank acc vals (hnb vals (by simp)),
            ih (fun x hx => hne x (by simp [hx])) (fun x hx => htr x (by simp [hx]))
              (fun x hx => hnb x (by simp [hx]))]
          simp

/-- Newline normalization is the identity on CR-free text. -/
theorem normNL_eq_self (l : List Char) (h : '\r' ∉ l) : normNL l = l := by
  induction l with
  | nil => rfl
  | cons c rest ih =>
      have hc : c ≠ '\r' := fun h2 => h (by simp [h2])
      have hrest : '\r' ∉ rest := fun h2 => h (by simp [h2])
      simp [normNL, hc, ih hrest]

/-- A character of a joined list is the separator or from some part. -/
theorem mem_joinSep {sep c : Char} {ls : List (List Char)}
    (h : c ∈ joinSep sep ls) : c = sep ∨ ∃ l ∈ ls, c ∈ l := by
  induction ls with
  | nil => simp [joinSep] at h
  | cons f rest ih =>
      cases rest with
      | nil => exact Or.inr ⟨f, by simp, by simpa [joinSep] using h⟩
      | cons f2 rest2 =>
          rw [show joinSep sep (f :: f2 :: rest2)
            = f ++ sep :: joinSep sep (f2 :: rest2) from rfl] at h
          rcases List.mem_append.mp h with h1 | h2
          · exact Or.inr ⟨f, by simp, h1⟩
          · rcases List.mem_cons.mp h2 with h3 | h4
            · exact Or.inl h3
            · rcases ih h4 with h5 | ⟨l, hl, hcl⟩
              · exact Or.inl h5
              · exact Or.inr ⟨l, by simp [hl], hcl⟩

/-- Doubling quotes introduces no new characters. -/
theorem mem_doubleQuotes {c : Char} {s : List Char} (h : c ∈ doubleQuotes s) :
    c ∈ s := by
  induction s with
  | nil => simp [doubleQuotes] at h
  | cons a rest ih =>
      by_cases ha : a = '"'
      · subst ha
        rw [show doubleQuotes ('"' :: rest) = '"' :: '"' :: doubleQuotes rest
          from by simp [doubleQuotes]] at h
        rcases List.mem_cons.mp h with h1 | h2
        · simp [h1]
        · rcases List.mem_cons.mp h2 with h3 | h4
          · simp [h3]
          · simp [ih h4]
      · rw [show doubleQuotes (a :: rest) = a :: doubleQuotes rest
          from by simp [doubleQuotes, ha]] at h
        rcases List.mem_cons.mp h with h1 | h2
        · simp [h1]
        · simp [ih h2]

/-- An escaped field only contains the value's characters and quotes. -/
theorem mem_escapeField {c : Char} {v : List Char} (h : c ∈ escapeField v) :
    c ∈ v ∨ c = '"' := by
  unfold escapeField at h
  split at h
  · rcases List.mem_cons.mp h with h1 | h2
    · exact Or.inr h1
    · rcases List.mem_append.mp h2 with h3 | h4
      · exact Or.inl (mem_doubleQuotes h3)
      · simp at h4
        exact Or.inr h4
  · exact Or.inl h

/-- The serialized CSV text contains no carriage return when neither the
column names nor the field values do. -/
theorem noCR_csvContent (data : List (List (List Char × List Char)))
    (cols : List (List Char))
    (hcols : ∀ c ∈ cols, '\r' ∉ c)
    (hvals : ∀ r ∈ data, ∀ c ∈ cols, '\r' ∉ getField r c) :
    '\r' ∉ csvContent data cols := by
  intro hmem
  unfold csvContent at hmem
  rcases mem_joinSep hmem with h1 | ⟨line, hline, hcl⟩
  · exact absurd h1 (by decide)
  · rcases List.mem_cons.mp hline with hl1 | hl2
    · subst hl1
      rcases mem_joinSep hcl with h2 | ⟨col, hcol, hcc⟩
      · exact absurd h2 (by decide)
      · exact hcols col hcol hcc
    · obtain ⟨r, hr, rfl⟩ := List.mem_map.mp hl2
      rcases mem_joinSep hcl with h2 | ⟨f, hf, hcf⟩
      · exact absurd h2 (by decide)
      · obtain ⟨col, hcol, rfl⟩ := List.mem_map.mp hf
        rcases mem_escapeField hcf with h3 | h4
        · exact hvals r hr col hcol h3
        · exact absurd h4 (by decide)

/-- C3 counterexample: the value (a, space) serializes unquoted, and the
parser's `field.trim()` drops the trailing space, so the round trip does
not reproduce the original field value. -/
theorem csv_roundtrip_trims :
    exportCSV [[("title".toList, "a ".toList)]] (some ["title".toList])
      = some ("title\na ".toList)
    ∧ parseCSVChars ("title\na ".toList) = [["title".toList], ["a".toList]]
    ∧ "a".toList ≠ "a ".toList :=
  ⟨rfl, rfl, by decide⟩

/-- C3 amended: the round trip holds for every nonempty record set and
column list in which all column names are trim-invariant and free of CR,
comma, quote and newline, some column name is nonempty, every listed field
value is trim-invariant and CR-free, and every record has a nonempty
listed field; values with embedded commas, quotes and newlines are
reproduced field-for-field with column order and header names preserved. -/
theorem csv_roundtrip (data : List (List (List Char × List Char)))
    (cols : List (List Char))
    (hdata : data ≠ [])
    (hcols : ∀ c ∈ cols, goodHeader c)
    (hcolsnb : ∃ c ∈ cols, c ≠ [])
    (hvals : ∀ r ∈ data, ∀ c ∈ cols, goodValue (getField r c))
    (hrows : ∀ r ∈ data, ∃ c ∈ cols, getField r c ≠ []) :
    exportCSV data (some cols) = some (csvContent data cols)
    ∧ parseCSVChars (csvContent data cols)
        = cols :: data.map (fun r => cols.map (getField r))
    ∧ parseCSV (String.mk (csvContent data cols))
        = (cols :: data.map (fun r => cols.map (getField r))).map
            (fun row => row.map (fun f => String.mk f)) := by
  have hcolsne : cols ≠ [] := by
    obtain ⟨c, hc, -⟩ := hcolsnb
    exact List.ne_nil_of_mem hc
  have hcolsesc : cols.map escapeField = cols := by
    have : ∀ c ∈ cols, escapeField c = c := fun c hc =>
      escapeField_eq_self c ⟨(hcols c hc).2.2.1, (hcols c hc).2.2.2.1,
        (hcols c hc).2.2.2.2⟩
    calc cols.map escapeField = cols.map id := List.map_congr_left this
    _ = cols := List.map_id cols
  have hparse : parseCSVChars (csvContent data cols)
      = cols :: data.map (fun r => cols.map (getField r)) := by
    unfold parseCSVChars
    rw [normNL_eq_self _ (noCR_csvContent data cols
      (fun c hc => (hcols c hc).2.1) (fun r hr c hc => (hvals r hr c hc).2))]
    have htext : csvContent data cols
        = joinSep '\n' ((cols :: data.map (fun r => cols.map (getField r))).map
            (fun vals => joinSep ',' (vals.map escapeField))) := by
      unfold csvContent
      simp only [List.map_cons, List.map_map, Function.comp, hcolsesc]
      refine congrArg _ (congrArg _ ?_)
      apply List.map_congr_left
      intro r hr
      simp only [Function.comp_apply, List.map_map]
      rfl
    rw [htext, csvRun_lines _ ?hne ?htr ?hnb]
    · simp
    case hne =>
      intro vals hv
      rcases List.mem_cons.mp hv with h1 | h2
      · simpa [h1] using hcolsne
      · obtain ⟨r, hr, rfl⟩ := List.mem_map.mp h2
        simpa using hcolsne
    case htr =>
      intro vals hv v hvv
      rcases List.mem_cons.mp hv with h1 | h2
      · exact (hcols v (h1 ▸ hvv)).1
      · obtain ⟨r, hr, rfl⟩ := List.mem_map.mp h2
        obtain ⟨c, hc, rfl⟩ := List.mem_map.mp hvv
        exact (hvals r hr c hc).1
    case hnb =>
      intro vals hv
      rcases List.mem_cons.mp hv with h1 | h2
      · exact h1 ▸ hcolsnb
      · obtain ⟨r, hr, rfl⟩ := List.mem_map.mp h2
        obtain ⟨c, hc, hne⟩ := hrows r hr
        exact ⟨getField r c, List.mem_map.mpr ⟨c, hc, rfl⟩, hne⟩
  refine ⟨?_, hparse, ?_⟩
  · unfold exportCSV
    rw [if_neg (by simpa using hdata)]
    rfl
  · unfold parseCSV
    rw [show (String.mk (csvContent data cols)).toList = csvContent data cols
      from rfl, hparse]

/-- C3 witness: the title (Say "Hi", please) with its quotes and comma
round-trips identically through export and parse. -/
theorem csv_roundtrip_witness :
    parseCSVChars (csvContent [[("title".toList, "Say \"Hi\", please".toList)]]
        ["title".toList])
      = [["title".toList], ["Say \"Hi\", please".toList]] := by
  have h := csv_roundtrip [[("title".toList, "Say \"Hi\", please".toList)]]
    ["title".toList] (by decide) (by decide) (by decide) (by decide) (by decide)
  exact h.2.1

end OpenSchool
